import Mathlib

/-!
Verification of the GrProxyProvider layer (src/src/gpu/GrProxyProvider.h).

The provider is a keyed registry plus factory for deferred GPU surface
proxies.  Its state holds the set of live proxies, the hash table of
uniquely keyed proxies (fUniquelyKeyedProxies), the backend pointers
(fResourceProvider, fResourceCache) and the abandonment flag
(fAbandoned).  The member functions whose bodies appear inline in the
header (abandon, isAbandoned, recordingDDL, the short createProxy
overload) are translated directly from that source; the remaining
member bodies live in a translation unit outside src/ and are modelled
from the specification, as marked on each definition.
-/

namespace GrSkia

/-- Unique key: a content identity with a domain tag and data words;
equality and hash are structural (spec section 3, GrResourceKey). -/
structure GrUniqueKey where
  domain : Nat
  data : List Nat
deriving DecidableEq, Repr

/-- Backing-fit policy of a proxy (SkBackingFit). -/
inductive SkBackingFit where
  | kApprox
  | kExact
deriving DecidableEq, Repr

/-- Mip-map state requested for a proxy (GrMipMapped). -/
inductive GrMipMapped where
  | kNo
  | kYes
deriving DecidableEq, Repr

/-- Row-origin convention of a surface (GrSurfaceOrigin). -/
inductive GrSurfaceOrigin where
  | kTopLeft
  | kBottomLeft
deriving DecidableEq, Repr

/-- Budget policy (SkBudgeted). -/
inductive SkBudgeted where
  | kNo
  | kYes
deriving DecidableEq, Repr

/-- Internal surface flag bits (GrInternalSurfaceFlags), kept abstract as a mask. -/
abbrev GrInternalSurfaceFlags := Nat

/-- Modelled from the spec: GrSurfaceDesc is declared in GrTypes.h, which is
not under src/; per spec section 3 it is a plain value with dimensions,
a pixel-layout tag and a sample count. -/
structure GrSurfaceDesc where
  fWidth : Nat
  fHeight : Nat
  fConfig : Nat
  fSampleCnt : Nat
deriving DecidableEq, Repr

/-- The allocator the provider forwards to; only its identity matters here. -/
structure GrResourceProvider where
  ident : Nat
deriving DecidableEq, Repr

/-- The resource cache the provider notifies; only its identity matters here. -/
structure GrResourceCache where
  ident : Nat
deriving DecidableEq, Repr

/-- A texture proxy as the provider observes it: requested dimensions, fit,
mip state, origin, the optional unique key attached to the proxy itself,
the optional unique key attached to the underlying instantiated GrSurface,
and the dimensions of the backing resource once instantiated. -/
structure GrTextureProxy where
  width : Nat
  height : Nat
  fit : SkBackingFit
  mipMapped : GrMipMapped
  origin : GrSurfaceOrigin
  uniqueKey : Option GrUniqueKey
  surfaceKey : Option GrUniqueKey
  backingDims : Option (Nat × Nat)
deriving DecidableEq, Repr

/-- Provider state: live proxies addressed by an id (pointer identity),
the table of uniquely keyed proxy ids, the two backend pointers and the
abandonment flag, mirroring the private section of GrProxyProvider. -/
structure ProviderState where
  proxies : List (Nat × GrTextureProxy)
  fUniquelyKeyedProxies : List Nat
  fResourceProvider : Option GrResourceProvider
  fResourceCache : Option GrResourceCache
  fAbandoned : Bool
deriving DecidableEq, Repr

/-- First-match lookup of a live proxy by id (pointer dereference). -/
def lookupProxy : List (Nat × GrTextureProxy) → Nat → Option GrTextureProxy
  | [], _ => none
  | e :: rest, pid => if e.1 = pid then some e.2 else lookupProxy rest pid

/-- Apply a mutation to the proxy with the given id, leaving others alone. -/
def updateProxy (pid : Nat) (f : GrTextureProxy → GrTextureProxy) :
    List (Nat × GrTextureProxy) → List (Nat × GrTextureProxy)
  | [] => []
  | e :: rest => (if e.1 = pid then (e.1, f e.2) else e) :: updateProxy pid f rest

/-- The unique key currently attached to the proxy with the given id. -/
def keyOf (s : ProviderState) (pid : Nat) : Option GrUniqueKey :=
  (lookupProxy s.proxies pid).bind GrTextureProxy.uniqueKey

/-- The surface key currently attached to the backing GrSurface of the
proxy with the given id (some none when the proxy is live but its
surface carries no key; none when no such proxy is live). -/
def surfaceKeyOf (s : ProviderState) (pid : Nat) : Option (Option GrUniqueKey) :=
  (lookupProxy s.proxies pid).map GrTextureProxy.surfaceKey

/-- From the source (GrProxyProvider.h line 219): abandon sets
fResourceCache and fResourceProvider to null and fAbandoned to true. -/
def abandon (s : ProviderState) : ProviderState :=
  { s with fResourceCache := none, fResourceProvider := none, fAbandoned := true }

/-- From the source (GrProxyProvider.h line 225): isAbandoned returns
fAbandoned (the debug assertion checks both pointers are null). -/
def isAbandoned (s : ProviderState) : Bool :=
  s.fAbandoned

/-- From the source (GrProxyProvider.h line 241): recordingDDL returns
the negation of SkToBool(fResourceProvider), true exactly when the
resource provider pointer is null. -/
def recordingDDL (s : ProviderState) : Bool :=
  s.fResourceProvider.isNone

/-- Modelled from the spec: the body of GrProxyProvider constructor is not
under src/; the provider is created bound to an allocator and a cache
(either may be null for deferred recording) with an empty key table and
not abandoned. -/
def initialState (rp : Option GrResourceProvider) (rc : Option GrResourceCache) :
    ProviderState :=
  { proxies := []
    fUniquelyKeyedProxies := []
    fResourceProvider := rp
    fResourceCache := rc
    fAbandoned := false }

/-- Modelled from the spec: the body of findProxyByUniqueKey is not under
src/; it is a single hash lookup keyed on structural equality of the
unique key, returning empty after abandonment. -/
def findProxyByUniqueKey (s : ProviderState) (k : GrUniqueKey)
    (origin : GrSurfaceOrigin) : Option Nat :=
  if s.fAbandoned then none
  else s.fUniquelyKeyedProxies.find? (fun pid => decide (keyOf s pid = some k))

/-- Modelled from the spec: the body of assignUniqueKeyToProxy is not under
src/; it fails without mutating state when the provider is abandoned, the
proxy is null, the proxy already carries a key, or the key already maps to
a live proxy in the table; otherwise it attaches the key to the proxy and
inserts the proxy into the table, returning true. -/
def assignUniqueKeyToProxy (s : ProviderState) (k : GrUniqueKey) (pid : Nat) :
    ProviderState × Bool :=
  if s.fAbandoned then (s, false)
  else
    match lookupProxy s.proxies pid with
    | none => (s, false)
    | some p =>
      if p.uniqueKey.isSome then (s, false)
      else if s.fUniquelyKeyedProxies.any (fun q => decide (keyOf s q = some k)) then
        (s, false)
      else
        ({ s with
            proxies := updateProxy pid (fun q => { q with uniqueKey := some k }) s.proxies
            fUniquelyKeyedProxies := pid :: s.fUniquelyKeyedProxies }, true)

/-- Modelled from the spec: the body of adoptUniqueKeyFromSurface is not
under src/; it copies the valid key carried by an already-real surface
onto the proxy and registers it through the assignment path. -/
def adoptUniqueKeyFromSurface (s : ProviderState) (pid : Nat)
    (surfKey : GrUniqueKey) : ProviderState :=
  (assignUniqueKeyToProxy s surfKey pid).1

/-- Modelled from the spec: the body of the key-plus-proxy overload of
processInvalidProxyUniqueKey is not under src/; per the header comment it
removes the key from the hash table, clears the key on the proxy, and,
exactly when invalidateSurface is set, also strips the unique key from the
underlying GrTexture; it is a no-op after abandonment. -/
def processInvalidProxyUniqueKeyWithProxy (s : ProviderState) (k : GrUniqueKey)
    (pid : Nat) (invalidateSurface : Bool) : ProviderState :=
  if s.fAbandoned then s
  else
    { s with
        fUniquelyKeyedProxies := s.fUniquelyKeyedProxies.filter (fun q => q != pid)
        proxies := updateProxy pid
          (fun p => { p with
              uniqueKey := none
              surfaceKey := if invalidateSurface then none else p.surfaceKey })
          s.proxies }

/-- Modelled from the spec: the body of the key-only overload of
processInvalidProxyUniqueKey is not under src/; per the header comment it
looks the key up in the table, and if an entry is registered forwards to
the key-plus-proxy overload without invalidating the surface; an absent
key is a silent no-op. -/
def processInvalidProxyUniqueKey (s : ProviderState) (k : GrUniqueKey) :
    ProviderState :=
  if s.fAbandoned then s
  else
    match s.fUniquelyKeyedProxies.find? (fun pid => decide (keyOf s pid = some k)) with
    | none => s
    | some pid => processInvalidProxyUniqueKeyWithProxy s k pid false

/-- Modelled from the spec: the body of removeUniqueKeyFromProxy is not
under src/; per the header comment it removes the unique key from the
proxy and, since the proxy may be instantiated, also removes the key from
the target GrSurface (the key-plus-proxy path with surface invalidation). -/
def removeUniqueKeyFromProxy (s : ProviderState) (k : GrUniqueKey) (pid : Nat) :
    ProviderState :=
  if s.fAbandoned then s
  else processInvalidProxyUniqueKeyWithProxy s k pid true

/-- Smallest id strictly above every live proxy id, used for allocation. -/
def freshId (s : ProviderState) : Nat :=
  s.proxies.foldr (fun e m => max (e.1 + 1) m) 0

/-- Modelled from the spec: the body of the full createProxy overload is
not under src/; it creates a fresh unkeyed, uninstantiated proxy described
by the arguments and returns it, or returns empty without mutating state
when the provider is abandoned. -/
def createProxy (s : ProviderState) (desc : GrSurfaceDesc) (origin : GrSurfaceOrigin)
    (mipMapped : GrMipMapped) (fit : SkBackingFit) (budgeted : SkBudgeted)
    (surfaceFlags : GrInternalSurfaceFlags) : ProviderState × Option Nat :=
  if s.fAbandoned then (s, none)
  else
    let pid := freshId s
    ({ s with
        proxies := (pid,
          { width := desc.fWidth
            height := desc.fHeight
            fit := fit
            mipMapped := mipMapped
            origin := origin
            uniqueKey := none
            surfaceKey := none
            backingDims := none }) :: s.proxies }, some pid)

/-- From the source (GrProxyProvider.h lines 112 to 117): the short
createProxy overload forwards to the full overload with GrMipMapped::kNo
in the mip-mapped position and the remaining arguments unchanged. -/
def createProxyNoMips (s : ProviderState) (desc : GrSurfaceDesc)
    (origin : GrSurfaceOrigin) (fit : SkBackingFit) (budgeted : SkBudgeted)
    (surfaceFlags : GrInternalSurfaceFlags) : ProviderState × Option Nat :=
  createProxy s desc origin GrMipMapped.kNo fit budgeted surfaceFlags

/-- Modelled from the spec: the proxy destructor (outside src/) notifies the
provider, which erases the proxy from the live set and from the key table. -/
def deleteProxy (s : ProviderState) (pid : Nat) : ProviderState :=
  { s with
      proxies := s.proxies.filter (fun e => e.1 != pid)
      fUniquelyKeyedProxies := s.fUniquelyKeyedProxies.filter (fun q => q != pid) }

/-- Modelled from the spec: the body of IsFunctionallyExact is not under
src/; per the spec it reports whether the backing resource dimensions
equal the requested ones, an exact-fit proxy being functionally exact by
construction before instantiation. -/
def IsFunctionallyExact (p : GrTextureProxy) : Bool :=
  match p.backingDims with
  | some d => decide (d.1 = p.width) && decide (d.2 = p.height)
  | none => decide (p.fit = SkBackingFit.kExact)

/-- One provider operation of the mutating interface. -/
inductive Op where
  | assignKey (k : GrUniqueKey) (pid : Nat)
  | adoptKey (pid : Nat) (surfKey : GrUniqueKey)
  | removeKey (k : GrUniqueKey) (pid : Nat)
  | invalidateKey (k : GrUniqueKey)
  | invalidateKeyProxy (k : GrUniqueKey) (pid : Nat) (invalidateSurface : Bool)
  | create (desc : GrSurfaceDesc) (origin : GrSurfaceOrigin) (mip : GrMipMapped)
      (fit : SkBackingFit) (budgeted : SkBudgeted) (flags : GrInternalSurfaceFlags)
  | deleteOp (pid : Nat)
  | abandonOp
deriving DecidableEq, Repr

/-- Small-step semantics of a provider operation. -/
def step (s : ProviderState) : Op → ProviderState
  | .assignKey k pid => (assignUniqueKeyToProxy s k pid).1
  | .adoptKey pid surfKey => adoptUniqueKeyFromSurface s pid surfKey
  | .removeKey k pid => removeUniqueKeyFromProxy s k pid
  | .invalidateKey k => processInvalidProxyUniqueKey s k
  | .invalidateKeyProxy k pid b => processInvalidProxyUniqueKeyWithProxy s k pid b
  | .create desc origin mip fit budgeted flags =>
      (createProxy s desc origin mip fit budgeted flags).1
  | .deleteOp pid => deleteProxy s pid
  | .abandonOp => abandon s

/-- Run a sequence of operations from a state. -/
def run (s : ProviderState) (ops : List Op) : ProviderState :=
  ops.foldl step s

/-- Modelled from the spec: flags the operations whose implementation reads
through the backend allocator or cache pointer (creation forwarding to the
allocator); every such path sits behind the isAbandoned guard, so an
abandoned provider never dereferences a backend pointer. -/
def backendDerefs (s : ProviderState) : Op → Bool
  | .create _ _ _ _ _ _ => !s.fAbandoned && s.fResourceProvider.isSome
  | _ => false

/-- The registry invariant: the entries of fUniquelyKeyedProxies carry
pairwise distinct unique keys, and every entry does carry a key. -/
def UniqueKeyInvariant (s : ProviderState) : Prop :=
  s.fUniquelyKeyedProxies.Pairwise (fun p q => keyOf s p ≠ keyOf s q) ∧
  ∀ pid ∈ s.fUniquelyKeyedProxies, (keyOf s pid).isSome = true

/-! Concrete sample data used to evaluate the theorems on closed inputs. -/

/-- A sample unique key. -/
def sampleKey1 : GrUniqueKey :=
  { domain := 1, data := [10] }

/-- A second, structurally different sample unique key. -/
def sampleKey2 : GrUniqueKey :=
  { domain := 2, data := [20] }

/-- A sample proxy already carrying sampleKey1, with the same key on its
instantiated surface. -/
def sampleProxyKeyed : GrTextureProxy :=
  { width := 64
    height := 64
    fit := SkBackingFit.kExact
    mipMapped := GrMipMapped.kNo
    origin := GrSurfaceOrigin.kTopLeft
    uniqueKey := some sampleKey1
    surfaceKey := some sampleKey1
    backingDims := some (64, 64) }

/-- A sample provider state holding the keyed proxy in its table. -/
def sampleState : ProviderState :=
  { proxies := [(0, sampleProxyKeyed)]
    fUniquelyKeyedProxies := [0]
    fResourceProvider := some { ident := 7 }
    fResourceCache := some { ident := 8 }
    fAbandoned := false }

/-- A sample approximate-fit proxy requested at 100 by 100 whose backing
resource was padded to 128 by 128. -/
def sampleApproxPadded : GrTextureProxy :=
  { width := 100
    height := 100
    fit := SkBackingFit.kApprox
    mipMapped := GrMipMapped.kNo
    origin := GrSurfaceOrigin.kTopLeft
    uniqueKey := none
    surfaceKey := none
    backingDims := some (128, 128) }

/-- A sample approximate-fit proxy requested at 100 by 100 whose backing
resource matches exactly. -/
def sampleApproxTight : GrTextureProxy :=
  { width := 100
    height := 100
    fit := SkBackingFit.kApprox
    mipMapped := GrMipMapped.kNo
    origin := GrSurfaceOrigin.kTopLeft
    uniqueKey := none
    surfaceKey := none
    backingDims := some (100, 100) }

/-! Basic lemmas about proxy lookup and update. -/

theorem lookupProxy_updateProxy_self (pid : Nat) (f : GrTextureProxy → GrTextureProxy)
    (ps : List (Nat × GrTextureProxy)) :
    lookupProxy (updateProxy pid f ps) pid = (lookupProxy ps pid).map f := by
  induction ps with
  | nil => rfl
  | cons e rest ih =>
    obtain ⟨a, pr⟩ := e
    by_cases h : a = pid
    · subst h
      simp [updateProxy, lookupProxy]
    · simp [updateProxy, lookupProxy, h, ih]

theorem lookupProxy_updateProxy_ne (pid q : Nat) (f : GrTextureProxy → GrTextureProxy)
    (ps : List (Nat × GrTextureProxy)) (h : q ≠ pid) :
    lookupProxy (updateProxy pid f ps) q = lookupProxy ps q := by
  induction ps with
  | nil => rfl
  | cons e rest ih =>
    obtain ⟨a, pr⟩ := e
    by_cases he : a = pid
    · subst he
      simp [updateProxy, lookupProxy, Ne.symm h, ih]
    · by_cases hq : a = q
      · subst hq
        simp [updateProxy, lookupProxy, he]
      · simp [updateProxy, lookupProxy, he, hq, ih]

theorem lookupProxy_filterOut_ne (pid q : Nat) (ps : List (Nat × GrTextureProxy))
    (h : q ≠ pid) :
    lookupProxy (ps.filter (fun e => e.1 != pid)) q = lookupProxy ps q := by
  induction ps with
  | nil => rfl
  | cons e rest ih =>
    obtain ⟨a, pr⟩ := e
    by_cases he : a = pid
    · subst he
      simp [lookupProxy, Ne.symm h, ih]
    · by_cases hq : a = q
      · subst hq
        simp [lookupProxy, he]
      · simp [lookupProxy, he, hq, ih]

theorem lookupProxy_some_mem (ps : List (Nat × GrTextureProxy)) (q : Nat)
    (p : GrTextureProxy) (h : lookupProxy ps q = some p) :
    ∃ x, x ∈ ps ∧ x.1 = q := by
  induction ps with
  | nil => simp [lookupProxy] at h
  | cons e rest ih =>
    by_cases he : e.1 = q
    · exact ⟨e, List.mem_cons_self e rest, he⟩
    · simp only [lookupProxy, he, if_false] at h
      obtain ⟨x, hx, hxq⟩ := ih h
      exact ⟨x, List.mem_cons_of_mem e hx, hxq⟩

theorem mem_lt_freshId (s : ProviderState) :
    ∀ x ∈ s.proxies, x.1 < freshId s := by
  unfold freshId
  induction s.proxies with
  | nil => intro x hx; simp at hx
  | cons e rest ih =>
    intro x hx
    rcases List.mem_cons.mp hx with h | h
    · subst h
      exact lt_of_lt_of_le (Nat.lt_succ_self _) (le_max_left _ _)
    · exact lt_of_lt_of_le (ih x h) (le_max_right _ _)

theorem lookupProxy_lt_freshId (s : ProviderState) (q : Nat) (p : GrTextureProxy)
    (h : lookupProxy s.proxies q = some p) : q < freshId s := by
  obtain ⟨x, hx, hxq⟩ := lookupProxy_some_mem s.proxies q p h
  exact hxq ▸ mem_lt_freshId s x hx

/-! Field-preservation lemmas: no operation other than abandon touches the
backend pointers or the abandonment flag. -/

theorem assignUniqueKeyToProxy_fields (s : ProviderState) (k : GrUniqueKey) (pid : Nat) :
    (assignUniqueKeyToProxy s k pid).1.fResourceProvider = s.fResourceProvider ∧
    (assignUniqueKeyToProxy s k pid).1.fResourceCache = s.fResourceCache ∧
    (assignUniqueKeyToProxy s k pid).1.fAbandoned = s.fAbandoned := by
  unfold assignUniqueKeyToProxy
  split
  · exact ⟨rfl, rfl, rfl⟩
  · split
    · exact ⟨rfl, rfl, rfl⟩
    · split
      · exact ⟨rfl, rfl, rfl⟩
      · split
        · exact ⟨rfl, rfl, rfl⟩
        · exact ⟨rfl, rfl, rfl⟩

theorem processInvalidProxyUniqueKeyWithProxy_fields (s : ProviderState)
    (k : GrUniqueKey) (pid : Nat) (b : Bool) :
    (processInvalidProxyUniqueKeyWithProxy s k pid b).fResourceProvider = s.fResourceProvider ∧
    (processInvalidProxyUniqueKeyWithProxy s k pid b).fResourceCache = s.fResourceCache ∧
    (processInvalidProxyUniqueKeyWithProxy s k pid b).fAbandoned = s.fAbandoned := by
  unfold processInvalidProxyUniqueKeyWithProxy
  split
  · exact ⟨rfl, rfl, rfl⟩
  · exact ⟨rfl, rfl, rfl⟩

theorem processInvalidProxyUniqueKey_fields (s : ProviderState) (k : GrUniqueKey) :
    (processInvalidProxyUniqueKey s k).fResourceProvider = s.fResourceProvider ∧
    (processInvalidProxyUniqueKey s k).fResourceCache = s.fResourceCache ∧
    (processInvalidProxyUniqueKey s k).fAbandoned = s.fAbandoned := by
  unfold processInvalidProxyUniqueKey
  split
  · exact ⟨rfl, rfl, rfl⟩
  · split
    · exact ⟨rfl, rfl, rfl⟩
    · exact processInvalidProxyUniqueKeyWithProxy_fields s k _ false

theorem removeUniqueKeyFromProxy_fields (s : ProviderState) (k : GrUniqueKey) (pid : Nat) :
    (removeUniqueKeyFromProxy s k pid).fResourceProvider = s.fResourceProvider ∧
    (removeUniqueKeyFromProxy s k pid).fResourceCache = s.fResourceCache ∧
    (removeUniqueKeyFromProxy s k pid).fAbandoned = s.fAbandoned := by
  unfold removeUniqueKeyFromProxy
  split
  · exact ⟨rfl, rfl, rfl⟩
  · exact processInvalidProxyUniqueKeyWithProxy_fields s k pid true

theorem createProxy_fields (s : ProviderState) (desc : GrSurfaceDesc)
    (origin : GrSurfaceOrigin) (mip : GrMipMapped) (fit : SkBackingFit)
    (budgeted : SkBudgeted) (flags : GrInternalSurfaceFlags) :
    (createProxy s desc origin mip fit budgeted flags).1.fResourceProvider = s.fResourceProvider ∧
    (createProxy s desc origin mip fit budgeted flags).1.fResourceCache = s.fResourceCache ∧
    (createProxy s desc origin mip fit budgeted flags).1.fAbandoned = s.fAbandoned := by
  unfold createProxy
  split
  · exact ⟨rfl, rfl, rfl⟩
  · exact ⟨rfl, rfl, rfl⟩

theorem step_fields (s : ProviderState) (op : Op) (h : op ≠ Op.abandonOp) :
    (step s op).fResourceProvider = s.fResourceProvider ∧
    (step s op).fResourceCache = s.fResourceCache ∧
    (step s op).fAbandoned = s.fAbandoned := by
  cases op with
  | assignKey k pid => exact assignUniqueKeyToProxy_fields s k pid
  | adoptKey pid surfKey => exact assignUniqueKeyToProxy_fields s surfKey pid
  | removeKey k pid => exact removeUniqueKeyFromProxy_fields s k pid
  | invalidateKey k => exact processInvalidProxyUniqueKey_fields s k
  | invalidateKeyProxy k pid b => exact processInvalidProxyUniqueKeyWithProxy_fields s k pid b
  | create desc origin mip fit budgeted flags =>
      exact createProxy_fields s desc origin mip fit budgeted flags
  | deleteOp pid => exact ⟨rfl, rfl, rfl⟩
  | abandonOp => exact absurd rfl h

theorem step_fAbandoned_of (s : ProviderState) (op : Op) (h : s.fAbandoned = true) :
    (step s op).fAbandoned = true := by
  by_cases ha : op = Op.abandonOp
  · subst ha; rfl
  · rw [(step_fields s op ha).2.2]; exact h

theorem step_fResourceProvider_none (s : ProviderState) (op : Op)
    (h : s.fResourceProvider = none) : (step s op).fResourceProvider = none := by
  by_cases ha : op = Op.abandonOp
  · subst ha; rfl
  · rw [(step_fields s op ha).1]; exact h

theorem run_fAbandoned_of (s : ProviderState) (ops : List Op) (h : s.fAbandoned = true) :
    (run s ops).fAbandoned = true := by
  induction ops generalizing s with
  | nil => exact h
  | cons op rest ih => exact ih (step s op) (step_fAbandoned_of s op h)

theorem run_fResourceProvider_none (s : ProviderState) (ops : List Op)
    (h : s.fResourceProvider = none) : (run s ops).fResourceProvider = none := by
  induction ops generalizing s with
  | nil => exact h
  | cons op rest ih => exact ih (step s op) (step_fResourceProvider_none s op h)

theorem run_abandonedInv (s : ProviderState) (ops : List Op)
    (h : s.fAbandoned = true → s.fResourceProvider = none ∧ s.fResourceCache = none) :
    (run s ops).fAbandoned = true →
      (run s ops).fResourceProvider = none ∧ (run s ops).fResourceCache = none := by
  induction ops generalizing s with
  | nil => exact h
  | cons op rest ih =>
    refine ih (step s op) ?_
    by_cases ha : op = Op.abandonOp
    · subst ha; intro _; exact ⟨rfl, rfl⟩
    · obtain ⟨h1, h2, h3⟩ := step_fields s op ha
      rw [h1, h2, h3]
      exact h

/-! Claim theorems. -/

/-- C3: after abandon, every subsequent mutating call (assign key, create,
remove in all shapes) returns empty or false and leaves the state as it is,
the key table is observably empty (every find-by-key returns none), and no
operation dereferences a backend pointer. -/
theorem abandon_finality (s : ProviderState) (ops : List Op) (k : GrUniqueKey)
    (pid : Nat) (b : Bool) (desc : GrSurfaceDesc) (origin : GrSurfaceOrigin)
    (mip : GrMipMapped) (fit : SkBackingFit) (budgeted : SkBudgeted)
    (flags : GrInternalSurfaceFlags) (op : Op) :
    assignUniqueKeyToProxy (run (abandon s) ops) k pid = (run (abandon s) ops, false) ∧
    createProxy (run (abandon s) ops) desc origin mip fit budgeted flags
      = (run (abandon s) ops, none) ∧
    processInvalidProxyUniqueKey (run (abandon s) ops) k = run (abandon s) ops ∧
    processInvalidProxyUniqueKeyWithProxy (run (abandon s) ops) k pid b
      = run (abandon s) ops ∧
    removeUniqueKeyFromProxy (run (abandon s) ops) k pid = run (abandon s) ops ∧
    findProxyByUniqueKey (run (abandon s) ops) k origin = none ∧
    backendDerefs (run (abandon s) ops) op = false := by
  have h : (run (abandon s) ops).fAbandoned = true := run_fAbandoned_of _ _ rfl
  refine ⟨?_, ?_, ?_, ?_, ?_, ?_, ?_⟩
  · simp [assignUniqueKeyToProxy, h]
  · simp [createProxy, h]
  · simp [processInvalidProxyUniqueKey, h]
  · simp [processInvalidProxyUniqueKeyWithProxy, h]
  · simp [removeUniqueKeyFromProxy, h]
  · simp [findProxyByUniqueKey, h]
  · cases op <;> simp [backendDerefs, h]

/-- C4: abandon nulls the resource cache and resource provider pointers and
marks the provider abandoned, so isAbandoned is true afterwards; and in every
reachable state, isAbandoned being true implies both pointers are null. -/
theorem abandon_severs_backend (s : ProviderState) (rp : Option GrResourceProvider)
    (rc : Option GrResourceCache) (ops : List Op)
    (h : isAbandoned (run (initialState rp rc) ops) = true) :
    (abandon s).fResourceCache = none ∧
    (abandon s).fResourceProvider = none ∧
    isAbandoned (abandon s) = true ∧
    (run (initialState rp rc) ops).fResourceCache = none ∧
    (run (initialState rp rc) ops).fResourceProvider = none := by
  have hinv := run_abandonedInv (initialState rp rc) ops
    (by intro hc; simp [initialState] at hc)
  have hboth := hinv h
  exact ⟨rfl, rfl, rfl, hboth.2, hboth.1⟩

/-- C4 witness: instantiated on a provider built with live backend pointers
and a one-step abandon history. -/
theorem abandon_severs_backend_witness :
    (abandon (initialState none none)).fResourceCache = none ∧
    (abandon (initialState none none)).fResourceProvider = none ∧
    isAbandoned (abandon (initialState none none)) = true ∧
    (run (initialState (some ⟨0⟩) (some ⟨1⟩)) [Op.abandonOp]).fResourceCache = none ∧
    (run (initialState (some ⟨0⟩) (some ⟨1⟩)) [Op.abandonOp]).fResourceProvider = none :=
  abandon_severs_backend (initialState none none) (some ⟨0⟩) (some ⟨1⟩)
    [Op.abandonOp] (by decide)

/-- C7: recordingDDL returns true exactly when the resource provider pointer
is null, i.e. when the provider operates without a live allocator. -/
theorem recordingDDL_iff_no_allocator (s : ProviderState) :
    recordingDDL s = true ↔ s.fResourceProvider = none := by
  cases h : s.fResourceProvider <;> simp [recordingDDL, h]

/-- C9: the short createProxy overload produces exactly the result of the
full overload applied with GrMipMapped::kNo and the same remaining
arguments, for every state and every argument tuple. -/
theorem createProxyNoMips_eq_full_kNo (s : ProviderState) (desc : GrSurfaceDesc)
    (origin : GrSurfaceOrigin) (fit : SkBackingFit) (budgeted : SkBudgeted)
    (flags : GrInternalSurfaceFlags) :
    createProxyNoMips s desc origin fit budgeted flags =
      createProxy s desc origin GrMipMapped.kNo fit budgeted flags := rfl

/-- C10: after abandon, and after any further operations, recordingDDL
returns true: by this query an abandoned provider looks exactly like one
constructed without a live allocator. -/
theorem recordingDDL_after_abandon (s : ProviderState) (ops : List Op) :
    recordingDDL (run (abandon s) ops) = true := by
  have h : (run (abandon s) ops).fResourceProvider = none :=
    run_fResourceProvider_none (abandon s) ops rfl
  simp [recordingDDL, h]

/-- C2: assigning a key to a proxy that already carries a unique key fails,
returning false and leaving the whole provider state, in particular the
existing key of the proxy and the key table, unchanged. -/
theorem assignUniqueKeyToProxy_noDoubleKey (s : ProviderState) (k k0 : GrUniqueKey)
    (pid : Nat) (p : GrTextureProxy) (hp : lookupProxy s.proxies pid = some p)
    (hk : p.uniqueKey = some k0) :
    assignUniqueKeyToProxy s k pid = (s, false) := by
  unfold assignUniqueKeyToProxy
  split
  · rfl
  · rw [hp]
    simp [hk]

/-- C2 witness: attempting to put sampleKey2 on the proxy already carrying
sampleKey1 fails without mutating the state. -/
theorem assignUniqueKeyToProxy_noDoubleKey_witness :
    assignUniqueKeyToProxy sampleState sampleKey2 0 = (sampleState, false) :=
  assignUniqueKeyToProxy_noDoubleKey sampleState sampleKey2 sampleKey1 0
    sampleProxyKeyed (by decide) (by decide)

/-- C5: removing a key that is absent from the table through the key-only
processInvalidProxyUniqueKey is a non-error no-op: the state, and with it
every other table entry, is unchanged. -/
theorem processInvalidProxyUniqueKey_absent_noop (s : ProviderState) (k : GrUniqueKey)
    (h : ∀ pid ∈ s.fUniquelyKeyedProxies, keyOf s pid ≠ some k) :
    processInvalidProxyUniqueKey s k = s := by
  unfold processInvalidProxyUniqueKey
  split
  · rfl
  · have hf : s.fUniquelyKeyedProxies.find?
        (fun pid => decide (keyOf s pid = some k)) = none := by
      rw [List.find?_eq_none]
      intro x hx
      simpa using h x hx
    rw [hf]

/-- C5 witness: removing the absent sampleKey2 from the sample table leaves
the state untouched. -/
theorem processInvalidProxyUniqueKey_absent_noop_witness :
    processInvalidProxyUniqueKey sampleState sampleKey2 = sampleState :=
  processInvalidProxyUniqueKey_absent_noop sampleState sampleKey2 (by decide)

theorem table_processInvalidWith (s : ProviderState) (k : GrUniqueKey) (pid : Nat)
    (b : Bool) (hab : s.fAbandoned = false) :
    (processInvalidProxyUniqueKeyWithProxy s k pid b).fUniquelyKeyedProxies
      = s.fUniquelyKeyedProxies.filter (fun q => q != pid) := by
  unfold processInvalidProxyUniqueKeyWithProxy
  simp [hab]

theorem keyOf_processInvalidWith_ne (s : ProviderState) (k : GrUniqueKey)
    (pid : Nat) (b : Bool) (x : Nat) (hab : s.fAbandoned = false) (hx : x ≠ pid) :
    keyOf (processInvalidProxyUniqueKeyWithProxy s k pid b) x = keyOf s x := by
  unfold processInvalidProxyUniqueKeyWithProxy
  simp only [hab, Bool.false_eq_true, if_false]
  unfold keyOf
  dsimp only
  rw [lookupProxy_updateProxy_ne _ _ _ _ hx]

theorem surfaceKeyOf_processInvalidWith_false (s : ProviderState) (k : GrUniqueKey)
    (pid q : Nat) (hab : s.fAbandoned = false) :
    surfaceKeyOf (processInvalidProxyUniqueKeyWithProxy s k pid false) q
      = surfaceKeyOf s q := by
  unfold processInvalidProxyUniqueKeyWithProxy
  simp only [hab, Bool.false_eq_true, if_false]
  by_cases hq : q = pid
  · subst hq
    unfold surfaceKeyOf
    dsimp only
    simp only [lookupProxy_updateProxy_self]
    cases lookupProxy s.proxies q <;> rfl
  · unfold surfaceKeyOf
    dsimp only
    rw [lookupProxy_updateProxy_ne _ _ _ _ hq]

/-- C6: the key-only removal path erases the table entry registered under
the key, so that no entry of the table resolves the key afterwards, yet it
never touches the unique key attached to the underlying surface of any
proxy; the key-plus-proxy path invoked with invalidateSurface set strips
the surface key of the target proxy. -/
theorem removal_shapes_surfaceKey (s : ProviderState) (k : GrUniqueKey)
    (pid q : Nat) (p : GrTextureProxy) (hinv : UniqueKeyInvariant s)
    (hab : s.fAbandoned = false)
    (hp : lookupProxy s.proxies pid = some p) :
    (processInvalidProxyUniqueKey s k).fUniquelyKeyedProxies.find?
      (fun r => decide (keyOf (processInvalidProxyUniqueKey s k) r = some k)) = none ∧
    surfaceKeyOf (processInvalidProxyUniqueKey s k) q = surfaceKeyOf s q ∧
    surfaceKeyOf (processInvalidProxyUniqueKeyWithProxy s k pid true) pid = some none := by
  refine ⟨?_, ?_, ?_⟩
  · unfold processInvalidProxyUniqueKey
    simp only [hab, Bool.false_eq_true, if_false]
    cases hfind : s.fUniquelyKeyedProxies.find?
        (fun pid => decide (keyOf s pid = some k)) with
    | none => exact hfind
    | some pid0 =>
      rw [List.find?_eq_none]
      intro x hx
      rw [table_processInvalidWith s k pid0 false hab] at hx
      have hx1 := List.mem_filter.mp hx
      have hxne : x ≠ pid0 := by simpa using hx1.2
      simp only [decide_eq_true_eq]
      rw [keyOf_processInvalidWith_ne s k pid0 false x hab hxne]
      intro hcontra
      have hmem0 : pid0 ∈ s.fUniquelyKeyedProxies := List.mem_of_find?_eq_some hfind
      have hkey0 : keyOf s pid0 = some k := by simpa using List.find?_some hfind
      have hsymm : Symmetric (fun a b : Nat => keyOf s a ≠ keyOf s b) :=
        fun a b h2 => h2.symm
      exact (hinv.1.forall hsymm hx1.1 hmem0 hxne) (hcontra.trans hkey0.symm)
  · unfold processInvalidProxyUniqueKey
    simp only [hab, Bool.false_eq_true, if_false]
    cases hfind : s.fUniquelyKeyedProxies.find?
        (fun pid => decide (keyOf s pid = some k)) with
    | none => rfl
    | some pid0 => exact surfaceKeyOf_processInvalidWith_false s k pid0 q hab
  · unfold processInvalidProxyUniqueKeyWithProxy
    simp only [hab, Bool.false_eq_true, if_false]
    unfold surfaceKeyOf
    rw [lookupProxy_updateProxy_self, hp]
    rfl

/-- C6 witness: on the sample state, key-only removal of sampleKey1 erases
the table entry for sampleKey1 yet leaves the surface key of proxy 0 in
place, and the key-plus-proxy call with invalidateSurface set strips it. -/
theorem removal_shapes_surfaceKey_witness :
    (processInvalidProxyUniqueKey sampleState sampleKey1).fUniquelyKeyedProxies.find?
      (fun r => decide (keyOf (processInvalidProxyUniqueKey sampleState sampleKey1) r
        = some sampleKey1)) = none ∧
    surfaceKeyOf (processInvalidProxyUniqueKey sampleState sampleKey1) 0
      = surfaceKeyOf sampleState 0 ∧
    surfaceKeyOf (processInvalidProxyUniqueKeyWithProxy sampleState sampleKey1 0 true) 0
      = some none :=
  removal_shapes_surfaceKey sampleState sampleKey1 0 0 sampleProxyKeyed
    (by unfold UniqueKeyInvariant; decide) rfl (by decide)

/-- C8: for an approximate-fit proxy requested at 100 by 100,
IsFunctionallyExact returns false when the instantiated backing resource is
larger in either dimension and true when the backing dimensions match the
request exactly. -/
theorem IsFunctionallyExact_approx_100 (p : GrTextureProxy) (bw bh : Nat)
    (hfit : p.fit = SkBackingFit.kApprox) (hw : p.width = 100) (hh : p.height = 100)
    (hb : p.backingDims = some (bw, bh)) :
    ((100 < bw ∨ 100 < bh) → IsFunctionallyExact p = false) ∧
    (bw = 100 → bh = 100 → IsFunctionallyExact p = true) := by
  constructor
  · intro h1
    simp only [IsFunctionallyExact, hb, hw, hh]
    simp only [Bool.and_eq_false_iff, decide_eq_false_iff_not]
    omega
  · intro h2 h3
    subst h2
    subst h3
    simp [IsFunctionallyExact, hb, hw, hh]

/-- C8 witness: the padded 128 by 128 backing makes the sample proxy not
functionally exact, the tight 100 by 100 backing makes it exact. -/
theorem IsFunctionallyExact_approx_100_witness :
    IsFunctionallyExact sampleApproxPadded = false ∧
    IsFunctionallyExact sampleApproxTight = true :=
  ⟨(IsFunctionallyExact_approx_100 sampleApproxPadded 128 128 rfl rfl rfl rfl).1
      (Or.inl (by decide)),
   (IsFunctionallyExact_approx_100 sampleApproxTight 100 100 rfl rfl rfl rfl).2 rfl rfl⟩

/-! Preservation of the registry invariant by every operation. -/

theorem inv_insert (s : ProviderState) (k : GrUniqueKey) (pid : Nat) (p : GrTextureProxy)
    (h : UniqueKeyInvariant s)
    (hp : lookupProxy s.proxies pid = some p)
    (hnk : p.uniqueKey = none)
    (hany : ∀ q ∈ s.fUniquelyKeyedProxies, keyOf s q ≠ some k) :
    UniqueKeyInvariant
      { s with
          proxies := updateProxy pid (fun q => { q with uniqueKey := some k }) s.proxies
          fUniquelyKeyedProxies := pid :: s.fUniquelyKeyedProxies } := by
  have key_self :
      keyOf { s with
          proxies := updateProxy pid (fun q => { q with uniqueKey := some k }) s.proxies
          fUniquelyKeyedProxies := pid :: s.fUniquelyKeyedProxies } pid = some k := by
    unfold keyOf
    dsimp only
    rw [lookupProxy_updateProxy_self, hp]
    rfl
  have key_other : ∀ q, q ≠ pid →
      keyOf { s with
          proxies := updateProxy pid (fun q => { q with uniqueKey := some k }) s.proxies
          fUniquelyKeyedProxies := pid :: s.fUniquelyKeyedProxies } q = keyOf s q := by
    intro q hq
    unfold keyOf
    dsimp only
    rw [lookupProxy_updateProxy_ne _ _ _ _ hq]
  have hpid_not : pid ∉ s.fUniquelyKeyedProxies := by
    intro hmem
    have hs := h.2 pid hmem
    unfold keyOf at hs
    rw [hp] at hs
    simp [hnk] at hs
  constructor
  · refine List.Pairwise.cons ?_ ?_
    · intro q hq
      have hqpid : q ≠ pid := fun hh => hpid_not (hh ▸ hq)
      rw [key_self, key_other q hqpid]
      exact fun hh => hany q hq hh.symm
    · refine h.1.imp_of_mem ?_
      intro a b ha hb hab
      have ha' : a ≠ pid := fun hh => hpid_not (hh ▸ ha)
      have hb' : b ≠ pid := fun hh => hpid_not (hh ▸ hb)
      rw [key_other a ha', key_other b hb']
      exact hab
  · intro q hq
    rcases List.mem_cons.mp hq with hh | hh
    · subst hh
      rw [key_self]
      rfl
    · have hq' : q ≠ pid := fun e => hpid_not (e ▸ hh)
      rw [key_other q hq']
      exact h.2 q hh

theorem assignUniqueKeyToProxy_preserves_inv (s : ProviderState) (k : GrUniqueKey)
    (pid : Nat) (h : UniqueKeyInvariant s) :
    UniqueKeyInvariant (assignUniqueKeyToProxy s k pid).1 := by
  unfold assignUniqueKeyToProxy
  split
  · exact h
  split
  · exact h
  next p hp =>
    split
    · exact h
    split
    · exact h
    next hnk hany =>
      have hnk' : p.uniqueKey = none := by
        cases hk : p.uniqueKey with
        | none => rfl
        | some k0 => rw [hk] at hnk; simp at hnk
      have hany' : ∀ q ∈ s.fUniquelyKeyedProxies, keyOf s q ≠ some k := by
        intro q hq
        intro he
        exact hany (by rw [List.any_eq_true]; exact ⟨q, hq, by simp [he]⟩)
      exact inv_insert s k pid p h hp hnk' hany'

theorem inv_filter_update (s : ProviderState) (pid : Nat)
    (f : GrTextureProxy → GrTextureProxy) (h : UniqueKeyInvariant s) :
    UniqueKeyInvariant
      { s with
          fUniquelyKeyedProxies := s.fUniquelyKeyedProxies.filter (fun q => q != pid)
          proxies := updateProxy pid f s.proxies } := by
  have key_other : ∀ q, q ≠ pid →
      keyOf { s with
          fUniquelyKeyedProxies := s.fUniquelyKeyedProxies.filter (fun q => q != pid)
          proxies := updateProxy pid f s.proxies } q = keyOf s q := by
    intro q hq
    unfold keyOf
    dsimp only
    rw [lookupProxy_updateProxy_ne _ _ _ _ hq]
  constructor
  · refine (h.1.filter _).imp_of_mem ?_
    intro a b ha hb hab
    have ha' : a ≠ pid := by simpa using (List.mem_filter.mp ha).2
    have hb' : b ≠ pid := by simpa using (List.mem_filter.mp hb).2
    rw [key_other a ha', key_other b hb']
    exact hab
  · intro q hq
    have hq1 := List.mem_filter.mp hq
    have hq' : q ≠ pid := by simpa using hq1.2
    rw [key_other q hq']
    exact h.2 q hq1.1

theorem processInvalidProxyUniqueKeyWithProxy_preserves_inv (s : ProviderState)
    (k : GrUniqueKey) (pid : Nat) (b : Bool) (h : UniqueKeyInvariant s) :
    UniqueKeyInvariant (processInvalidProxyUniqueKeyWithProxy s k pid b) := by
  unfold processInvalidProxyUniqueKeyWithProxy
  split
  · exact h
  · exact inv_filter_update s pid _ h

theorem processInvalidProxyUniqueKey_preserves_inv (s : ProviderState)
    (k : GrUniqueKey) (h : UniqueKeyInvariant s) :
    UniqueKeyInvariant (processInvalidProxyUniqueKey s k) := by
  unfold processInvalidProxyUniqueKey
  split
  · exact h
  split
  · exact h
  · exact processInvalidProxyUniqueKeyWithProxy_preserves_inv s k _ false h

theorem removeUniqueKeyFromProxy_preserves_inv (s : ProviderState)
    (k : GrUniqueKey) (pid : Nat) (h : UniqueKeyInvariant s) :
    UniqueKeyInvariant (removeUniqueKeyFromProxy s k pid) := by
  unfold removeUniqueKeyFromProxy
  split
  · exact h
  · exact processInvalidProxyUniqueKeyWithProxy_preserves_inv s k pid true h

theorem deleteProxy_preserves_inv (s : ProviderState) (pid : Nat)
    (h : UniqueKeyInvariant s) : UniqueKeyInvariant (deleteProxy s pid) := by
  have key_other : ∀ q, q ≠ pid → keyOf (deleteProxy s pid) q = keyOf s q := by
    intro q hq
    unfold keyOf deleteProxy
    dsimp only
    rw [lookupProxy_filterOut_ne _ _ _ hq]
  constructor
  · refine (h.1.filter _).imp_of_mem ?_
    intro a b ha hb hab
    have ha' : a ≠ pid := by simpa using (List.mem_filter.mp ha).2
    have hb' : b ≠ pid := by simpa using (List.mem_filter.mp hb).2
    rw [key_other a ha', key_other b hb']
    exact hab
  · intro q hq
    have hq1 := List.mem_filter.mp hq
    have hq' : q ≠ pid := by simpa using hq1.2
    rw [key_other q hq']
    exact h.2 q hq1.1

theorem inv_prepend_fresh (s : ProviderState) (p0 : GrTextureProxy)
    (h : UniqueKeyInvariant s) :
    UniqueKeyInvariant { s with proxies := (freshId s, p0) :: s.proxies } := by
  have key_pres : ∀ q ∈ s.fUniquelyKeyedProxies,
      keyOf { s with proxies := (freshId s, p0) :: s.proxies } q = keyOf s q := by
    intro q hq
    have hsome := h.2 q hq
    cases hlq : lookupProxy s.proxies q with
    | none =>
      unfold keyOf at hsome
      rw [hlq] at hsome
      simp at hsome
    | some pr =>
      have hlt := lookupProxy_lt_freshId s q pr hlq
      have hne : freshId s ≠ q := by omega
      unfold keyOf
      dsimp only
      simp [lookupProxy, hne]
  constructor
  · refine h.1.imp_of_mem ?_
    intro a b ha hb hab
    rw [key_pres a ha, key_pres b hb]
    exact hab
  · intro q hq
    rw [key_pres q hq]
    exact h.2 q hq

theorem createProxy_preserves_inv (s : ProviderState) (desc : GrSurfaceDesc)
    (origin : GrSurfaceOrigin) (mip : GrMipMapped) (fit : SkBackingFit)
    (budgeted : SkBudgeted) (flags : GrInternalSurfaceFlags)
    (h : UniqueKeyInvariant s) :
    UniqueKeyInvariant (createProxy s desc origin mip fit budgeted flags).1 := by
  unfold createProxy
  split
  · exact h
  · exact inv_prepend_fresh s _ h

theorem step_preserves_inv (s : ProviderState) (op : Op) (h : UniqueKeyInvariant s) :
    UniqueKeyInvariant (step s op) := by
  cases op with
  | assignKey k pid => exact assignUniqueKeyToProxy_preserves_inv s k pid h
  | adoptKey pid surfKey => exact assignUniqueKeyToProxy_preserves_inv s surfKey pid h
  | removeKey k pid => exact removeUniqueKeyFromProxy_preserves_inv s k pid h
  | invalidateKey k => exact processInvalidProxyUniqueKey_preserves_inv s k h
  | invalidateKeyProxy k pid b =>
      exact processInvalidProxyUniqueKeyWithProxy_preserves_inv s k pid b h
  | create desc origin mip fit budgeted flags =>
      exact createProxy_preserves_inv s desc origin mip fit budgeted flags h
  | deleteOp pid => exact deleteProxy_preserves_inv s pid h
  | abandonOp => exact h

theorem run_preserves_inv (s : ProviderState) (ops : List Op)
    (h : UniqueKeyInvariant s) : UniqueKeyInvariant (run s ops) := by
  induction ops generalizing s with
  | nil => exact h
  | cons op rest ih => exact ih (step s op) (step_preserves_inv s op h)

theorem initialState_inv (rp : Option GrResourceProvider)
    (rc : Option GrResourceCache) : UniqueKeyInvariant (initialState rp rc) := by
  constructor
  · exact List.Pairwise.nil
  · intro q hq
    simp [initialState] at hq

theorem pairwise_filter_key_length_le_one (g : Nat → Option GrUniqueKey)
    (l : List Nat) (k : GrUniqueKey)
    (h : l.Pairwise (fun p q => g p ≠ g q)) :
    (l.filter (fun pid => decide (g pid = some k))).length ≤ 1 := by
  induction l with
  | nil => simp
  | cons a rest ih =>
    rcases List.pairwise_cons.mp h with ⟨ha, hrest⟩
    by_cases hk : g a = some k
    · have hempty : rest.filter (fun pid => decide (g pid = some k)) = [] := by
        rw [List.filter_eq_nil_iff]
        intro b hb
        simp only [decide_eq_true_eq]
        intro hgb
        exact ha b hb (hk.trans hgb.symm)
      simp [List.filter_cons, hk, hempty]
    · simp only [List.filter_cons, hk, decide_eq_true_eq, if_false]
      exact ih hrest

/-- C1: starting from a freshly constructed provider, after any sequence of
provider operations the key table holds pairwise structurally distinct keys,
so for every key k at most one live proxy is registered under k. -/
theorem uniqueKeyTable_no_duplicates (rp : Option GrResourceProvider)
    (rc : Option GrResourceCache) (ops : List Op) (k : GrUniqueKey) :
    (run (initialState rp rc) ops).fUniquelyKeyedProxies.Pairwise
      (fun p q => keyOf (run (initialState rp rc) ops) p
        ≠ keyOf (run (initialState rp rc) ops) q) ∧
    ((run (initialState rp rc) ops).fUniquelyKeyedProxies.filter
      (fun pid => decide (keyOf (run (initialState rp rc) ops) pid = some k))).length ≤ 1 := by
  have hinv := run_preserves_inv (initialState rp rc) ops (initialState_inv rp rc)
  exact ⟨hinv.1, pairwise_filter_key_length_le_one _ _ k hinv.1⟩

end GrSkia
